import Mathlib

/-!
Verification of the campus-companion authentication core: the validation
module (`src/components/button.tsx`, third segment: email/name/password
validators and the sign-up form validator) and the Auth Manager
(`src/unnamed/part_001`: `AuthProvider` with `bootstrapAsync`, `login`,
`signUp`, `logout`, `resetPassword` over an AsyncStorage-backed session
store).  Each definition is a shallow embedding of the corresponding
TypeScript function.
-/

namespace Campus

/-! ## Validation module -/

/-- The character class `[^\s@]` of the email regex: any character that is
neither whitespace nor `@`. -/
def emailAtomChar (c : Char) : Bool :=
  !c.isWhitespace && c != '@'

/-- Backtracking matcher for the regex fragment `X+` (one or more characters
satisfying `p`) followed by a continuation `k` that must accept the remaining
input: the embedding of a `+` node of the regex engine running
`/^[^\s@]+@[^\s@]+\.[^\s@]+$/`. -/
def plusThen (p : Char → Bool) (k : List Char → Bool) : List Char → Bool
  | [] => false
  | c :: cs => p c && (k cs || plusThen p k cs)

/-- The `$` anchor of the email regex: accept exactly the end of input. -/
def emailEnd (r : List Char) : Bool :=
  r.isEmpty

/-- The regex fragment `[^\s@]+$` (the final segment after the literal dot). -/
def emailTail2 (r : List Char) : Bool :=
  plusThen emailAtomChar emailEnd r

/-- The regex fragment `\.[^\s@]+$`: a literal `.` then the final segment. -/
def emailK2 : List Char → Bool
  | [] => false
  | c :: r => c == '.' && emailTail2 r

/-- The regex fragment `[^\s@]+\.[^\s@]+$`. -/
def emailTail1 (r : List Char) : Bool :=
  plusThen emailAtomChar emailK2 r

/-- The regex fragment `@[^\s@]+\.[^\s@]+$`: a literal `@` then the rest. -/
def emailK1 : List Char → Bool
  | [] => false
  | c :: r => c == '@' && emailTail1 r

/-- `isValidEmail` from the validation utilities:
`const emailRegex = /^[^\s@]+@[^\s@]+\.[^\s@]+$/; return emailRegex.test(email);`
the anchored matcher of that exact regex, decomposed into its sequential
fragments. -/
def isValidEmail (email : String) : Bool :=
  plusThen emailAtomChar emailK1 email.data

/-- The email shape named by the specification: a non-empty run of
characters that are neither whitespace nor `@`, then `@`, then such a run,
then `.`, then such a run. -/
def EmailShape (s : String) : Prop :=
  ∃ a b c : List Char, a ≠ [] ∧ b ≠ [] ∧ c ≠ [] ∧
    (∀ x ∈ a ++ b ++ c, emailAtomChar x = true) ∧
    s.data = a ++ '@' :: (b ++ '.' :: c)

/-- JavaScript `String.prototype.trim`: remove whitespace from both ends of
the string (the validators only ever apply it to ASCII input, where Lean's
`Char.isWhitespace` and the JS whitespace class agree). -/
def jsTrim (s : String) : String :=
  ⟨((s.data.dropWhile Char.isWhitespace).reverse.dropWhile Char.isWhitespace).reverse⟩

/-- `isValidName`: `name.trim().length >= 2`. -/
def isValidName (name : String) : Bool :=
  (jsTrim name).length ≥ 2

/-- The special-character class of `validatePassword`:
`/[!@#$%^&*()_+\-=\[\]{};':"\\|,.<>\/?]/`. -/
def specialChars : List Char :=
  ['!', '@', '#', '$', '%', '^', '&', '*', '(', ')', '_', '+', '-', '=',
   '[', ']', Char.ofNat 123, Char.ofNat 125, ';', Char.ofNat 39, ':',
   '"', '\\', '|', ',', '.', '<', '>', '/', '?']

/-- Result record of `validatePassword`. -/
structure PasswordSignals where
  isLengthValid : Bool
  hasUpperCase : Bool
  hasLowerCase : Bool
  hasNumber : Bool
  hasSpecialChar : Bool
  deriving Repr, DecidableEq

/-- `validatePassword(password)`: the five boolean signals, each a regex
test over the password (`/[A-Z]/`, `/[a-z]/`, `/\d/`, special class). -/
def validatePassword (password : String) : PasswordSignals :=
  { isLengthValid := password.length ≥ 8
    hasUpperCase := password.data.any (fun c => 'A' ≤ c && c ≤ 'Z')
    hasLowerCase := password.data.any (fun c => 'a' ≤ c && c ≤ 'z')
    hasNumber := password.data.any (fun c => '0' ≤ c && c ≤ '9')
    hasSpecialChar := password.data.any (fun c => specialChars.contains c) }

/-- `getPasswordStrength(password)`: `0` for the empty (falsy) string,
otherwise one point per satisfied signal — length, upper-and-lower jointly,
digit, special — clamped by `Math.min(strength, 4)`. -/
def getPasswordStrength (password : String) : Nat :=
  if password.isEmpty then 0
  else
    let v := validatePassword password
    let strength :=
      (if v.isLengthValid then 1 else 0) +
      (if v.hasUpperCase && v.hasLowerCase then 1 else 0) +
      (if v.hasNumber then 1 else 0) +
      (if v.hasSpecialChar then 1 else 0)
    min strength 4

/-- The error map built by `validateSignUpForm`: at most one message per
field (`errors.email`, `errors.password`, `errors.name`). -/
structure SignUpErrors where
  email : Option String
  password : Option String
  name : Option String
  deriving Repr, DecidableEq

/-- `validateSignUpForm(email, password, name)`: per-field first-failing
rule, and `isValid` true exactly when the error object has no keys. -/
def validateSignUpForm (email password name : String) :
    Bool × SignUpErrors :=
  let emailErr : Option String :=
    if (jsTrim email).isEmpty then some "Email is required"
    else if !isValidEmail email then some "Please enter a valid email"
    else none
  let passwordErr : Option String :=
    if password.isEmpty then some "Password is required"
    else if password.length < 8 then some "Password must be at least 8 characters"
    else none
  let nameErr : Option String :=
    if (jsTrim name).isEmpty then some "Name is required"
    else if !isValidName name then some "Name must be at least 2 characters"
    else none
  let errors : SignUpErrors := ⟨emailErr, passwordErr, nameErr⟩
  (decide (errors = ⟨none, none, none⟩), errors)

/-! ## Auth Manager (`AuthProvider` in `src/unnamed/part_001`) -/

/-- The `User` interface: `id`, `email`, `name`. -/
structure User where
  id : String
  email : String
  name : String
  deriving Repr, DecidableEq

/-- A value stored under the `userData` key: either the
`JSON.stringify` image of a `User` (which `JSON.parse` inverts), or a
corrupt raw string on which `JSON.parse` throws. -/
inductive StoredData where
  | encoded (u : User)
  | corrupt (raw : String)
  deriving Repr, DecidableEq

/-- `JSON.parse` on a stored `userData` value: recovers the user from a
`JSON.stringify` image, throws (`none`) on anything else. -/
def parseStored : StoredData → Option User
  | .encoded u => some u
  | .corrupt _ => none

/-- The AsyncStorage contents at the two keys the Auth Manager uses,
`authToken` and `userData`; `none` means the key is absent. -/
structure Store where
  authToken : Option String
  userData : Option StoredData
  deriving Repr, DecidableEq

/-- The Auth Manager's in-memory state: `user` (aka `currentUser`) and
`isLoading`.  `isSignedIn` is derived as `user ≠ none`. -/
structure AuthState where
  user : Option User
  isLoading : Bool
  deriving Repr, DecidableEq

/-- `AuthProvider`'s initial state: `useState<User | null>(null)` and
`useState(true)` for `isLoading`. -/
def initialAuthState : AuthState :=
  { user := none, isLoading := true }

/-- Errors an Auth Manager operation can propagate: a thrown
`new Error(msg)` from a validation check, or a rejected AsyncStorage call. -/
inductive AuthError where
  | validation (msg : String)
  | store
  deriving Repr, DecidableEq

/-- JavaScript truthiness of the nullable string returned by
`AsyncStorage.getItem`: truthy iff present and non-empty. -/
def jsTruthyStr : Option String → Bool
  | some t => !t.isEmpty
  | none => false

/-- JavaScript truthiness of a read `userData` value: a `JSON.stringify`
image of an object is never the empty string; a corrupt raw value is falsy
exactly when empty. -/
def jsTruthyData : Option StoredData → Bool
  | some (.encoded _) => true
  | some (.corrupt raw) => !raw.isEmpty
  | none => false

/-- `nameFromEmail`: `email.split('@')[0]`, the prefix of the email before
the first `@` (the whole string when there is no `@`). -/
def nameFromEmail (email : String) : String :=
  ⟨email.data.takeWhile (fun c => c ≠ '@')⟩

/-- `bootstrapAsync`: read `authToken` and `userData` (the read can reject,
`readOk = false`), set the user only when both are truthy and the user data
parses; any thrown error is caught and logged; `finally` clears
`isLoading`. -/
def bootstrapAsync (readOk : Bool) (st : AuthState) (store : Store) :
    AuthState :=
  if !readOk then { st with isLoading := false }
  else if jsTruthyStr store.authToken && jsTruthyData store.userData then
    match store.userData with
    | some sd =>
      match parseStored sd with
      | some u => { st with user := some u, isLoading := false }
      | none => { st with isLoading := false }
    | none => { st with isLoading := false }
  else { st with isLoading := false }

/-- `login(email, password)`: validation throw on a falsy email or
password; otherwise build the mock user (fresh `newId`, name from the email
local part), `multiSet` both keys (which can reject, `storeOk = false`),
then `setUser`; `catch` rethrows; `finally` clears `isLoading`.  `newId`
and `token` stand for the `Math.random()` id and `Date.now()`-based token
generated during the call. -/
def login (newId token : String) (storeOk : Bool) (email password : String)
    (st : AuthState) (store : Store) :
    Except AuthError Unit × AuthState × Store :=
  if email.isEmpty || password.isEmpty then
    (.error (.validation "Email and password are required"),
     { st with isLoading := false }, store)
  else
    let mockUser : User := { id := newId, email := email, name := nameFromEmail email }
    if storeOk then
      (.ok (), { user := some mockUser, isLoading := false },
       { authToken := some token, userData := some (.encoded mockUser) })
    else
      (.error .store, { st with isLoading := false }, store)

/-- `signUp(email, password, name)`: validation throws on any falsy field
or a password shorter than 8; otherwise persist and set the mock user with
the provided name. -/
def signUp (newId token : String) (storeOk : Bool)
    (email password name : String) (st : AuthState) (store : Store) :
    Except AuthError Unit × AuthState × Store :=
  if email.isEmpty || password.isEmpty || name.isEmpty then
    (.error (.validation "All fields are required"),
     { st with isLoading := false }, store)
  else if password.length < 8 then
    (.error (.validation "Password must be at least 8 characters"),
     { st with isLoading := false }, store)
  else
    let mockUser : User := { id := newId, email := email, name := name }
    if storeOk then
      (.ok (), { user := some mockUser, isLoading := false },
       { authToken := some token, userData := some (.encoded mockUser) })
    else
      (.error .store, { st with isLoading := false }, store)

/-- `logout()`: `multiRemove` both keys (which can reject,
`storeOk = false`), then `setUser(null)`; `catch` rethrows; `finally`
clears `isLoading`.  When the removal rejects, `setUser(null)` is never
reached. -/
def logout (storeOk : Bool) (st : AuthState) (store : Store) :
    Except AuthError Unit × AuthState × Store :=
  if storeOk then
    (.ok (), { user := none, isLoading := false },
     { authToken := none, userData := none })
  else
    (.error .store, { st with isLoading := false }, store)

/-- `resetPassword(email)`: validation throw on a falsy email; otherwise
only logs; no state or store change beyond the `isLoading` bracket. -/
def resetPassword (email : String) (st : AuthState) (store : Store) :
    Except AuthError Unit × AuthState × Store :=
  if email.isEmpty then
    (.error (.validation "Email is required"),
     { st with isLoading := false }, store)
  else
    (.ok (), { st with isLoading := false }, store)

/-! ## Helper lemmas -/

theorem isEmpty_false_of_ne {s : String} (h : s ≠ "") : s.isEmpty = false := by
  cases he : s.isEmpty
  · rfl
  · exact absurd ((String.isEmpty_iff s).mp he) h

theorem append_ne_empty_left {p s : String} (h : p ≠ "") : p ++ s ≠ "" := by
  intro hps
  apply h
  have hd : p.data ++ s.data = ([] : List Char) := by
    have := congrArg String.data hps
    simpa using this
  have : p.data = [] := by
    rcases List.append_eq_nil.mp hd with ⟨h1, _⟩
    exact h1
  cases p
  simp_all

theorem any_append_of_any {p s : String} {f : Char → Bool}
    (h : p.data.any f = true) : (p ++ s).data.any f = true := by
  have hd : (p ++ s).data = p.data ++ s.data := by simp
  rw [hd, List.any_append, h]
  rfl

theorem ite_one_zero_mono {X Y : Prop} [Decidable X] [Decidable Y]
    (h : X → Y) : (if X then 1 else 0) ≤ (if Y then 1 else 0) := by
  by_cases hx : X
  · rw [if_pos hx, if_pos (h hx)]
  · rw [if_neg hx]
    exact Nat.zero_le _

theorem plusThen_eq_true_iff (p : Char → Bool) (k : List Char → Bool) (l : List Char) :
    plusThen p k l = true ↔
      ∃ a r, a ≠ [] ∧ (∀ c ∈ a, p c = true) ∧ k r = true ∧ l = a ++ r := by
  induction l with
  | nil =>
    simp only [plusThen]
    constructor
    · intro h
      cases h
    · rintro ⟨a, r, ha, -, -, heq⟩
      cases a with
      | nil => exact absurd rfl ha
      | cons x xs => simp at heq
  | cons c cs ih =>
    simp only [plusThen, Bool.and_eq_true, Bool.or_eq_true]
    constructor
    · rintro ⟨hpc, hk | hrec⟩
      · exact ⟨[c], cs, by simp, by simpa using hpc, hk, rfl⟩
      · obtain ⟨a, r, ha, hall, hk, heq⟩ := ih.mp hrec
        refine ⟨c :: a, r, by simp, ?_, hk, by simp [heq]⟩
        intro x hx
        rcases List.mem_cons.mp hx with h | h
        · rw [h]
          exact hpc
        · exact hall x h
    · rintro ⟨a, r, ha, hall, hk, heq⟩
      cases a with
      | nil => exact absurd rfl ha
      | cons a0 a2 =>
        rw [List.cons_append, List.cons.injEq] at heq
        obtain ⟨hc, hcs⟩ := heq
        refine ⟨hc ▸ hall a0 (List.mem_cons_self a0 a2), ?_⟩
        cases a2 with
        | nil =>
          left
          rw [hcs, List.nil_append]
          exact hk
        | cons b bs =>
          right
          exact ih.mpr ⟨b :: bs, r, by simp,
            fun x hx => hall x (List.mem_cons_of_mem a0 hx), hk, hcs⟩

theorem emailK1_eq_true_iff (r : List Char) :
    emailK1 r = true ↔ ∃ r2, r = '@' :: r2 ∧ emailTail1 r2 = true := by
  cases r with
  | nil => simp [emailK1]
  | cons c r2 =>
    simp only [emailK1, Bool.and_eq_true, beq_iff_eq]
    constructor
    · rintro ⟨rfl, h⟩
      exact ⟨r2, rfl, h⟩
    · rintro ⟨r3, heq, h⟩
      rw [List.cons.injEq] at heq
      obtain ⟨rfl, rfl⟩ := heq
      exact ⟨rfl, h⟩

theorem emailK2_eq_true_iff (r : List Char) :
    emailK2 r = true ↔ ∃ r2, r = '.' :: r2 ∧ emailTail2 r2 = true := by
  cases r with
  | nil => simp [emailK2]
  | cons c r2 =>
    simp only [emailK2, Bool.and_eq_true, beq_iff_eq]
    constructor
    · rintro ⟨rfl, h⟩
      exact ⟨r2, rfl, h⟩
    · rintro ⟨r3, heq, h⟩
      rw [List.cons.injEq] at heq
      obtain ⟨rfl, rfl⟩ := heq
      exact ⟨rfl, h⟩

theorem isValidEmail_eq_true_iff (s : String) :
    isValidEmail s = true ↔ EmailShape s := by
  unfold isValidEmail EmailShape
  rw [plusThen_eq_true_iff]
  constructor
  · rintro ⟨a, r1, ha, hallA, hk1, heq⟩
    obtain ⟨r2, rfl, ht1⟩ := (emailK1_eq_true_iff r1).mp hk1
    rw [emailTail1, plusThen_eq_true_iff] at ht1
    obtain ⟨b, r3, hb, hallB, hk2, heq2⟩ := ht1
    obtain ⟨r4, rfl, ht2⟩ := (emailK2_eq_true_iff r3).mp hk2
    rw [emailTail2, plusThen_eq_true_iff] at ht2
    obtain ⟨cc, r5, hcc, hallC, hend, heq4⟩ := ht2
    have hr5 : r5 = [] := by
      simpa [emailEnd, List.isEmpty_iff] using hend
    subst hr5
    rw [List.append_nil] at heq4
    refine ⟨a, b, cc, ha, hb, hcc, ?_, ?_⟩
    · intro x hx
      rcases List.mem_append.mp hx with hx | hx
      · rcases List.mem_append.mp hx with hx | hx
        · exact hallA x hx
        · exact hallB x hx
      · exact hallC x hx
    · rw [heq, heq2, heq4]
  · rintro ⟨a, b, cc, ha, hb, hcc, hall, heq⟩
    have hallA : ∀ x ∈ a, emailAtomChar x = true := by
      intro x hx
      exact hall x (by simp [hx])
    have hallB : ∀ x ∈ b, emailAtomChar x = true := by
      intro x hx
      exact hall x (by simp [hx])
    have hallC : ∀ x ∈ cc, emailAtomChar x = true := by
      intro x hx
      exact hall x (by simp [hx])
    refine ⟨a, '@' :: (b ++ '.' :: cc), ha, hallA, ?_, heq⟩
    refine (emailK1_eq_true_iff _).mpr ⟨b ++ '.' :: cc, rfl, ?_⟩
    rw [emailTail1, plusThen_eq_true_iff]
    refine ⟨b, '.' :: cc, hb, hallB, ?_, rfl⟩
    refine (emailK2_eq_true_iff _).mpr ⟨cc, rfl, ?_⟩
    rw [emailTail2, plusThen_eq_true_iff]
    exact ⟨cc, [], hcc, hallC, rfl, (List.append_nil cc).symm⟩

/-! ## Claim theorems -/

/-- C6: `getPasswordStrength p` is 0 when `p` is empty, and otherwise is the
number of satisfied signals — length ≥ 8, upper-and-lower jointly, a digit,
a special character — clamped to at most 4; consequently it always lies in
`[0, 4]`. -/
theorem getPasswordStrength_spec (p : String) :
    getPasswordStrength p =
      (if p = "" then 0
       else
         min ((if p.length ≥ 8 then 1 else 0) +
              (if (p.data.any fun c => 'A' ≤ c && c ≤ 'Z') = true ∧
                  (p.data.any fun c => 'a' ≤ c && c ≤ 'z') = true then 1 else 0) +
              (if (p.data.any fun c => '0' ≤ c && c ≤ '9') = true then 1 else 0) +
              (if (p.data.any fun c => specialChars.contains c) = true then 1 else 0))
           4) ∧
    getPasswordStrength p ≤ 4 := by
  constructor
  · by_cases h : p = ""
    · subst h
      decide
    · rw [if_neg h]
      simp only [getPasswordStrength, isEmpty_false_of_ne h, Bool.false_eq_true,
        if_false, validatePassword, Bool.and_eq_true, decide_eq_true_eq]
  · by_cases h : p.isEmpty
    · simp [getPasswordStrength, h]
    · simp only [getPasswordStrength, h, Bool.false_eq_true, if_false]
      exact Nat.min_le_right _ _

/-- C7: `isValidEmail s` is true exactly when `s` has the shape: a
non-empty run of non-whitespace-non-`@` characters, `@`, such a run, `.`,
such a run; in particular every string without `@` is rejected, `"a@b.c"`
is accepted and `"a@b"` is rejected. -/
theorem isValidEmail_spec :
    (∀ s : String, isValidEmail s = true ↔ EmailShape s) ∧
    (∀ s : String, '@' ∉ s.data → isValidEmail s = false) ∧
    isValidEmail "a@b.c" = true ∧ isValidEmail "a@b" = false := by
  refine ⟨isValidEmail_eq_true_iff, ?_, by decide, by decide⟩
  intro s hs
  cases hval : isValidEmail s
  · rfl
  · exfalso
    obtain ⟨a, b, c, -, -, -, -, heq⟩ := (isValidEmail_eq_true_iff s).mp hval
    apply hs
    rw [heq]
    simp

/-- Witness for C7: the accepted email `"a@b.c"` indeed has the shape, and
the `@`-free string `"zzz"` is rejected, by direct application of the
claim's theorem. -/
theorem isValidEmail_spec_witness :
    EmailShape "a@b.c" ∧ isValidEmail "zzz" = false :=
  ⟨(isValidEmail_spec.1 "a@b.c").mp (by decide),
   isValidEmail_spec.2.1 "zzz" (by decide)⟩

/-- C10: appending characters never lowers the password strength:
`getPasswordStrength p ≤ getPasswordStrength (p ++ s)`, because each of the
four scoring signals is preserved by appending. -/
theorem getPasswordStrength_append_mono (p s : String) :
    getPasswordStrength p ≤ getPasswordStrength (p ++ s) := by
  by_cases h : p = ""
  · subst h
    have h0 : getPasswordStrength "" = 0 := by decide
    rw [h0]
    exact Nat.zero_le _
  · have hp : p.isEmpty = false := isEmpty_false_of_ne h
    have hps : (p ++ s).isEmpty = false := isEmpty_false_of_ne (append_ne_empty_left h)
    simp only [getPasswordStrength, hp, hps, Bool.false_eq_true, if_false]
    refine min_le_min ?_ le_rfl
    have hlen : (validatePassword p).isLengthValid = true →
        (validatePassword (p ++ s)).isLengthValid = true := by
      simp only [validatePassword, decide_eq_true_eq]
      have : (p ++ s).length = p.length + s.length := by simp
      omega
    have hul : ((validatePassword p).hasUpperCase && (validatePassword p).hasLowerCase) = true →
        ((validatePassword (p ++ s)).hasUpperCase && (validatePassword (p ++ s)).hasLowerCase) = true := by
      simp only [validatePassword, Bool.and_eq_true]
      rintro ⟨h1, h2⟩
      exact ⟨any_append_of_any h1, any_append_of_any h2⟩
    have hnum : (validatePassword p).hasNumber = true →
        (validatePassword (p ++ s)).hasNumber = true := by
      simp only [validatePassword]
      exact any_append_of_any
    have hsp : (validatePassword p).hasSpecialChar = true →
        (validatePassword (p ++ s)).hasSpecialChar = true := by
      simp only [validatePassword]
      exact any_append_of_any
    exact Nat.add_le_add
      (Nat.add_le_add
        (Nat.add_le_add (ite_one_zero_mono hlen) (ite_one_zero_mono hul))
        (ite_one_zero_mono hnum))
      (ite_one_zero_mono hsp)

theorem isValidName_eq_false_iff (n : String) :
    isValidName n = false ↔ (jsTrim n).length < 2 := by
  simp [isValidName, Nat.lt_iff_add_one_le]

open Classical in
/-- C8: `validateSignUpForm` produces exactly the per-field errors of the
specification (email: required, then format; password: required, then
minimum length 8; name: required, then trimmed length at least 2), its
`isValid` is true exactly when the error map is empty, and the two
spec test vectors evaluate as stated. -/
theorem validateSignUpForm_spec (e p n : String) :
    (validateSignUpForm e p n).2 =
      { email :=
          if jsTrim e = "" then some "Email is required"
          else if ¬ EmailShape e then some "Please enter a valid email"
          else none
        password :=
          if p = "" then some "Password is required"
          else if p.length < 8 then some "Password must be at least 8 characters"
          else none
        name :=
          if jsTrim n = "" then some "Name is required"
          else if (jsTrim n).length < 2 then some "Name must be at least 2 characters"
          else none } ∧
    ((validateSignUpForm e p n).1 = true ↔
      (validateSignUpForm e p n).2 = ⟨none, none, none⟩) ∧
    validateSignUpForm "" "" "" =
      (false, ⟨some "Email is required", some "Password is required",
        some "Name is required"⟩) ∧
    validateSignUpForm "x@y.com" "longpassword" "Jo" =
      (true, ⟨none, none, none⟩) := by
  refine ⟨?_, ?_, by decide, by decide⟩
  · simp only [validateSignUpForm, SignUpErrors.mk.injEq]
    refine ⟨?_, ?_, ?_⟩
    · by_cases he : jsTrim e = ""
      · simp [he, String.isEmpty_iff]
      · have he2 : (jsTrim e).isEmpty = false := isEmpty_false_of_ne he
        cases hv : isValidEmail e
        · have : ¬ EmailShape e := by
            rw [← isValidEmail_eq_true_iff, hv]
            simp
          simp [he2, he, hv, this]
        · have : EmailShape e := (isValidEmail_eq_true_iff e).mp hv
          simp [he2, he, hv, this]
    · by_cases hp : p = ""
      · simp [hp, String.isEmpty_iff]
      · have hp2 : p.isEmpty = false := isEmpty_false_of_ne hp
        simp [hp2, hp]
    · by_cases hn : jsTrim n = ""
      · simp [hn, String.isEmpty_iff]
      · have hn2 : (jsTrim n).isEmpty = false := isEmpty_false_of_ne hn
        cases hv : isValidName n
        · have := (isValidName_eq_false_iff n).mp hv
          simp [hn2, hn, hv, this]
        · have : ¬ (jsTrim n).length < 2 := by
            intro hlt
            rw [(isValidName_eq_false_iff n).mpr hlt] at hv
            cases hv
          simp [hn2, hn, hv, this]
  · simp only [validateSignUpForm, decide_eq_true_eq]

/-- Witness for C8: the two spec test vectors, obtained by applying the
claim's theorem at those inputs. -/
theorem validateSignUpForm_spec_witness :
    (validateSignUpForm "" "" "").1 = false ∧
    (validateSignUpForm "x@y.com" "longpassword" "Jo").1 = true := by
  constructor
  · rw [(validateSignUpForm_spec "" "" "").2.2.1]
  · rw [(validateSignUpForm_spec "x@y.com" "longpassword" "Jo").2.2.2]

/-- C2: every one of the four Auth Manager operations, on every exit path,
leaves `isLoading = false`, and after any failure `currentUser` is exactly
what it was before the operation. -/
theorem authOps_cleanup (newId token : String) (storeOk : Bool)
    (email password name : String) (st : AuthState) (store : Store) :
    ((login newId token storeOk email password st store).2.1.isLoading = false ∧
      ∀ e, (login newId token storeOk email password st store).1 = .error e →
        (login newId token storeOk email password st store).2.1.user = st.user) ∧
    ((signUp newId token storeOk email password name st store).2.1.isLoading = false ∧
      ∀ e, (signUp newId token storeOk email password name st store).1 = .error e →
        (signUp newId token storeOk email password name st store).2.1.user = st.user) ∧
    ((logout storeOk st store).2.1.isLoading = false ∧
      ∀ e, (logout storeOk st store).1 = .error e →
        (logout storeOk st store).2.1.user = st.user) ∧
    ((resetPassword email st store).2.1.isLoading = false ∧
      ∀ e, (resetPassword email st store).1 = .error e →
        (resetPassword email st store).2.1.user = st.user) := by
  refine ⟨⟨?_, ?_⟩, ⟨?_, ?_⟩, ⟨?_, ?_⟩, ⟨?_, ?_⟩⟩
  · unfold login
    split_ifs <;> rfl
  · unfold login
    split_ifs <;> intro e h <;> first | rfl | simp at h
  · unfold signUp
    split_ifs <;> rfl
  · unfold signUp
    split_ifs <;> intro e h <;> first | rfl | simp at h
  · unfold logout
    split_ifs <;> rfl
  · unfold logout
    split_ifs <;> intro e h <;> first | rfl | simp at h
  · unfold resetPassword
    split_ifs <;> rfl
  · unfold resetPassword
    split_ifs <;> intro e h <;> first | rfl | simp at h

/-- Witness for C2: a failing login (empty fields) and a failing logout
(store rejection) both land on `isLoading = false` with `currentUser`
untouched, by direct application of the claim's theorem. -/
theorem authOps_cleanup_witness :
    (login "i" "t" false "" "" ⟨some ⟨"0", "e", "n"⟩, true⟩ ⟨none, none⟩).2.1.isLoading
      = false ∧
    (login "i" "t" false "" "" ⟨some ⟨"0", "e", "n"⟩, true⟩ ⟨none, none⟩).2.1.user
      = some ⟨"0", "e", "n"⟩ ∧
    (logout false ⟨some ⟨"0", "e", "n"⟩, true⟩ ⟨none, none⟩).2.1.user
      = some ⟨"0", "e", "n"⟩ :=
  ⟨(authOps_cleanup "i" "t" false "" "" "" ⟨some ⟨"0", "e", "n"⟩, true⟩ ⟨none, none⟩).1.1,
   (authOps_cleanup "i" "t" false "" "" "" ⟨some ⟨"0", "e", "n"⟩, true⟩ ⟨none, none⟩).1.2
     (.validation "Email and password are required") rfl,
   (authOps_cleanup "i" "t" false "" "" "" ⟨some ⟨"0", "e", "n"⟩, true⟩ ⟨none, none⟩).2.2.1.2
     .store rfl⟩

/-- C3: `login` with an empty email or an empty password fails with the
validation error, leaves `currentUser` unchanged and writes nothing to the
store. -/
theorem login_empty_fields_spec (newId token : String) (storeOk : Bool)
    (email password : String) (st : AuthState) (store : Store)
    (h : email = "" ∨ password = "") :
    (login newId token storeOk email password st store).1 =
      .error (.validation "Email and password are required") ∧
    (login newId token storeOk email password st store).2.1.user = st.user ∧
    (login newId token storeOk email password st store).2.2 = store := by
  have hnilEmpty : "".isEmpty = true := rfl
  have hcond : (email.isEmpty || password.isEmpty) = true := by
    rcases h with rfl | rfl
    · simp [hnilEmpty]
    · simp [hnilEmpty]
  simp [login, hcond]

/-- Witness for C3: `login("", "x")` and `login("x@y.com", "")` both fail
with the validation error, by direct application of the claim's theorem. -/
theorem login_empty_fields_spec_witness :
    (login "i" "t" true "" "x" initialAuthState ⟨none, none⟩).1 =
      .error (.validation "Email and password are required") ∧
    (login "i" "t" true "x@y.com" "" initialAuthState ⟨none, none⟩).1 =
      .error (.validation "Email and password are required") :=
  ⟨(login_empty_fields_spec "i" "t" true "" "x" initialAuthState ⟨none, none⟩
      (Or.inl rfl)).1,
   (login_empty_fields_spec "i" "t" true "x@y.com" "" initialAuthState ⟨none, none⟩
      (Or.inr rfl)).1⟩

theorem dropWhile_ne_nil_or_head (l : List Char) (x : Char) :
    l.dropWhile (fun c => c ≠ x) = [] ∨
    ∃ t, l.dropWhile (fun c => c ≠ x) = x :: t := by
  induction l with
  | nil => exact Or.inl rfl
  | cons c cs ih =>
    by_cases h : c = x
    · subst h
      right
      refine ⟨cs, ?_⟩
      simp [List.dropWhile_cons]
    · rw [List.dropWhile_cons, if_pos (by simp [h])]
      exact ih

/-- C5: a successful login with non-empty email and password writes the
token and the encoded user to the store together, and sets `currentUser` to
a user whose `email` is the given email and whose `name` is the prefix of
the email before the first `@`. -/
theorem login_success_spec (newId token : String) (email password : String)
    (st : AuthState) (store : Store) (he : email ≠ "") (hp : password ≠ "") :
    (login newId token true email password st store).1 = .ok () ∧
    (login newId token true email password st store).2.2.authToken = some token ∧
    (∃ u : User,
      (login newId token true email password st store).2.2.userData =
        some (.encoded u) ∧
      (login newId token true email password st store).2.1.user = some u ∧
      u.email = email ∧
      '@' ∉ u.name.data ∧
      ∃ rest : List Char, email.data = u.name.data ++ rest ∧
        (rest = [] ∨ ∃ t, rest = '@' :: t)) := by
  have hcond : (email.isEmpty || password.isEmpty) = false := by
    simp [isEmpty_false_of_ne he, isEmpty_false_of_ne hp]
  have hres : login newId token true email password st store =
      (.ok (), { user := some ⟨newId, email, nameFromEmail email⟩, isLoading := false },
       { authToken := some token,
         userData := some (.encoded ⟨newId, email, nameFromEmail email⟩) }) := by
    simp [login, hcond]
  rw [hres]
  refine ⟨rfl, rfl, ⟨newId, email, nameFromEmail email⟩, rfl, rfl, rfl, ?_, ?_⟩
  · intro hmem
    have := List.mem_takeWhile_imp hmem
    simp at this
  · rcases dropWhile_ne_nil_or_head email.data '@' with hd | ⟨t, hd⟩
    · exact ⟨email.data.dropWhile (fun c => c ≠ '@'),
        (List.takeWhile_append_dropWhile _ _).symm, Or.inl hd⟩
    · exact ⟨email.data.dropWhile (fun c => c ≠ '@'),
        (List.takeWhile_append_dropWhile _ _).symm, Or.inr ⟨t, hd⟩⟩

/-- Witness for C5: a concrete successful login, by direct application of
the claim's theorem. -/
theorem login_success_spec_witness :
    (login "i" "t" true "a@b.c" "pw" initialAuthState ⟨none, none⟩).1 = .ok () :=
  (login_success_spec "i" "t" "a@b.c" "pw" initialAuthState ⟨none, none⟩
    (by decide) (by decide)).1

/-- C9: for non-empty email and password, `login` never raises a validation
error — the email's format is not checked — and when the store write
succeeds it sets `currentUser` to a present user. -/
theorem login_no_format_check (newId token : String) (storeOk : Bool)
    (email password : String) (st : AuthState) (store : Store)
    (he : email ≠ "") (hp : password ≠ "") :
    (∀ msg, (login newId token storeOk email password st store).1 ≠
      .error (.validation msg)) ∧
    (storeOk = true →
      ∃ u : User,
        (login newId token storeOk email password st store).2.1.user = some u) := by
  have hcond : (email.isEmpty || password.isEmpty) = false := by
    simp [isEmpty_false_of_ne he, isEmpty_false_of_ne hp]
  cases storeOk
  · constructor
    · intro msg
      simp [login, hcond]
    · intro h
      cases h
  · constructor
    · intro msg
      simp [login, hcond]
    · intro _
      have hres : login newId token true email password st store =
          (.ok (), { user := some ⟨newId, email, nameFromEmail email⟩, isLoading := false },
           { authToken := some token,
             userData := some (.encoded ⟨newId, email, nameFromEmail email⟩) }) := by
        simp [login, hcond]
      rw [hres]
      exact ⟨⟨newId, email, nameFromEmail email⟩, rfl⟩

/-- Witness for C9: a non-empty email with no `@` and no dot passes login's
validation and yields a signed-in user, by direct application of the
claim's theorem. -/
theorem login_no_format_check_witness :
    (∀ msg, (login "i" "t" true "nonsense" "x" initialAuthState ⟨none, none⟩).1 ≠
      .error (.validation msg)) ∧
    (∃ u : User,
      (login "i" "t" true "nonsense" "x" initialAuthState ⟨none, none⟩).2.1.user =
        some u) :=
  ⟨(login_no_format_check "i" "t" true "nonsense" "x" initialAuthState ⟨none, none⟩
      (by decide) (by decide)).1,
   (login_no_format_check "i" "t" true "nonsense" "x" initialAuthState ⟨none, none⟩
      (by decide) (by decide)).2 rfl⟩

/-- C4: bootstrap fails closed: with a token but no user record, with an
unparsable user record, or with a failing store read, it ends with
`currentUser` absent and `isLoading = false`. -/
theorem bootstrap_fail_closed (readOk : Bool) (store : Store)
    (h : (store.authToken ≠ none ∧ store.userData = none) ∨
      (∃ raw, store.userData = some (.corrupt raw)) ∨ readOk = false) :
    bootstrapAsync readOk initialAuthState store =
      { user := none, isLoading := false } := by
  rcases h with ⟨-, hu⟩ | ⟨raw, hu⟩ | rfl
  · cases readOk
    · rfl
    · have hd : jsTruthyData store.userData = false := by
        rw [hu]
        rfl
      simp [bootstrapAsync, hd, initialAuthState]
  · cases readOk
    · rfl
    · cases hts : jsTruthyStr store.authToken <;> cases hre : raw.isEmpty <;>
        simp [bootstrapAsync, hu, jsTruthyData, parseStored, initialAuthState, hts, hre]
  · rfl

/-- Witness for C4: a store holding a token but no user record bootstraps
to the unauthenticated state, by direct application of the claim's
theorem. -/
theorem bootstrap_fail_closed_witness :
    bootstrapAsync true initialAuthState ⟨some "t", none⟩ =
      { user := none, isLoading := false } :=
  bootstrap_fail_closed true ⟨some "t", none⟩ (Or.inl ⟨by simp, rfl⟩)

/-- C1 counterexample: a logout whose store removal fails leaves
`currentUser` present, contradicting the claim that after every logout
call `currentUser` is absent whether the removal succeeds or fails. -/
theorem logout_always_clears_cex :
    (logout false ⟨some ⟨"1", "a@b.c", "a"⟩, false⟩
      ⟨some "t", some (.encoded ⟨"1", "a@b.c", "a"⟩)⟩).2.1.user ≠ none := by
  decide

/-- C1 (amended): when the store removal succeeds, logout clears
`currentUser`; when the removal fails, logout propagates the store error
and leaves `currentUser` exactly as it was — it is not cleared. -/
theorem logout_spec_amended (storeOk : Bool) (st : AuthState) (store : Store) :
    (storeOk = true → (logout storeOk st store).2.1.user = none) ∧
    (storeOk = false →
      (logout storeOk st store).1 = .error .store ∧
      (logout storeOk st store).2.1.user = st.user) := by
  cases storeOk <;> simp [logout]

/-- Witness for C1 (amended): a successful logout clears the user, a failed
one keeps it, by direct application of the amended theorem. -/
theorem logout_spec_amended_witness :
    (logout true initialAuthState ⟨none, none⟩).2.1.user = none ∧
    (logout false ⟨some ⟨"1", "e", "n"⟩, true⟩ ⟨none, none⟩).2.1.user =
      some ⟨"1", "e", "n"⟩ :=
  ⟨(logout_spec_amended true initialAuthState ⟨none, none⟩).1 rfl,
   ((logout_spec_amended false ⟨some ⟨"1", "e", "n"⟩, true⟩ ⟨none, none⟩).2 rfl).2⟩

end Campus
